import Mathlib

/-
Shallow embedding of the ably-js client core covered by the specification:
`src/common/lib/client/baseclient.ts` (BaseClient and its inner Channels
collection) and `src/common/lib/types/pushchannelsubscription.ts`
(PushChannelSubscription).  Pure functions are translated to Lean
functions; instance state (`this.…` fields) becomes explicit record state;
JavaScript exceptions and `new ErrorInfo(...)` throws become `Except`.
-/

set_option autoImplicit false

namespace AblyJs

/-- Minimal model of a loosely typed JavaScript value, as far as the
`baseclient.ts` code inspects one: `typeof x == 'function'` dispatch,
`typeof x === 'string'`, `x === null`, and string-literal comparison. -/
inductive JsVal where
  | strV (s : String)
  | numV (n : Int)
  | boolV (b : Bool)
  | funV (id : Nat)
  | objV (id : Nat)
  | nullV
  | undefV
deriving DecidableEq, Repr

/-- The test `typeof x == 'function'` from the stats/time overload juggling. -/
def JsVal.isFunction : JsVal → Bool
  | .funV _ => true
  | _ => false

/-- The test `typeof x === 'string'` used on `clientId`. -/
def JsVal.isString : JsVal → Bool
  | .strV _ => true
  | _ => false

/-- The test `x === null` used on `clientId`. -/
def JsVal.isNull : JsVal → Bool
  | .nullV => true
  | _ => false

/-- Primitive values a caller can pass as a channel name; `Channels.get`
and `Channels.release` coerce the argument with `String(name)`. -/
inductive JName where
  | str (s : String)
  | num (n : Int)
  | boolN (b : Bool)
  | nullN
  | undefN
deriving DecidableEq, Repr

/-- JavaScript `String(x)` coercion on the primitive values of `JName`. -/
def JName.toStr : JName → String
  | .str s => s
  | .num n => toString n
  | .boolN b => if b then "true" else "false"
  | .nullN => "null"
  | .undefN => "undefined"

/-- Model of `ErrorInfo(message, code, statusCode)` from
`common/lib/types/errorinfo.ts` (only the three constructor fields the
claims inspect). -/
structure ErrorInfo where
  message : String
  code : Nat
  statusCode : Nat
deriving DecidableEq, Repr

/- ---------------------------------------------------------------- -/
/- PushChannelSubscription (common/lib/types/pushchannelsubscription.ts) -/
/- ---------------------------------------------------------------- -/

/-- The three declared fields of `PushChannelSubscription`; each is
optional (`undefined` when unset), modelled as `Option String`. -/
structure PushChannelSubscription where
  channel : Option String
  deviceId : Option String
  clientId : Option String
deriving DecidableEq, Repr

/-- A freshly constructed `new PushChannelSubscription()`: every field is
`undefined`. -/
def PushChannelSubscription.new0 : PushChannelSubscription :=
  ⟨none, none, none⟩

/-- A JSON-style record entry: property name paired with its (possibly
`undefined`) string value. -/
abbrev JsonField := String × Option String

/-- Source `toJSON()`: returns the object literal
`{ channel: this.channel, deviceId: this.deviceId, clientId: this.clientId }`. -/
def PushChannelSubscription.toJSON (s : PushChannelSubscription) : List JsonField :=
  [("channel", s.channel), ("deviceId", s.deviceId), ("clientId", s.clientId)]

/-- One step of `Object.assign`: assigning property `kv` onto a
`PushChannelSubscription` target.  A key other than the three declared
fields lands in an expando property, which is not observable through the
declared fields and so is dropped here. -/
def assignProp (p : PushChannelSubscription) (kv : JsonField) : PushChannelSubscription :=
  if kv.1 = "channel" then { p with channel := kv.2 }
  else if kv.1 = "deviceId" then { p with deviceId := kv.2 }
  else if kv.1 = "clientId" then { p with clientId := kv.2 }
  else p

/-- Source `fromValues(values)`: `Object.assign(new PushChannelSubscription(), values)`. -/
def PushChannelSubscription.fromValues (values : List JsonField) : PushChannelSubscription :=
  values.foldl assignProp PushChannelSubscription.new0

/-- Source `fromValuesArray(values)`: the `for` loop
`for(let i = 0; i < count; i++) result[i] = fromValues(values[i])`,
mirrored as structural recursion over the input list. -/
def PushChannelSubscription.fromValuesArray : List (List JsonField) → List PushChannelSubscription
  | [] => []
  | v :: rest => PushChannelSubscription.fromValues v :: PushChannelSubscription.fromValuesArray rest

end AblyJs

namespace AblyJs

/- ---------------------------------------------------------------- -/
/- Channels (baseclient.ts, class Channels)                          -/
/- ---------------------------------------------------------------- -/

/-- Opaque token standing for a `ChannelOptions` value; `setOptions`
stores it verbatim, which is all the embedded code does with it. -/
abbrev ChannelOptions := Nat

/-- A `Channel` instance.  `id` models JavaScript object identity: each
`new Channel(...)` allocation receives a fresh id, and two references
denote the same instance exactly when their ids agree. -/
structure Channel where
  id : Nat
  name : String
  opts : Option ChannelOptions
deriving DecidableEq, Repr

/-- Source `channel.setOptions(channelOptions)`: mutates the options of
the existing instance (identity `id` unchanged). -/
def Channel.setOptions (c : Channel) (o : ChannelOptions) : Channel :=
  { c with opts := some o }

/-- The `Channels` collection: `this.all = Object.create(null)` is a
string-keyed map, plus the allocation counter modelling `new Channel`
instance identity. -/
structure Channels where
  all : String → Option Channel
  nextId : Nat

/-- Source `Channels` constructor: `this.all = Object.create(null)`. -/
def Channels.mk0 : Channels :=
  { all := fun _ => none, nextId := 0 }

/-- Source `Channels.get(name, channelOptions)`:
`name = String(name); let channel = this.all[name];
if (!channel) { this.all[name] = channel = new Channel(client, name, channelOptions); }
else if (channelOptions) { channel.setOptions(channelOptions); }
return channel;`
In JavaScript `setOptions` mutates the stored instance in place; here the
updated record is written back to the map to model that. -/
def Channels.get (s : Channels) (name : JName) (channelOptions : Option ChannelOptions) :
    Channel × Channels :=
  let n := name.toStr
  match s.all n with
  | none =>
    let channel : Channel := { id := s.nextId, name := n, opts := channelOptions }
    (channel, { all := fun k => if k = n then some channel else s.all k, nextId := s.nextId + 1 })
  | some channel =>
    match channelOptions with
    | some o =>
      let channel2 := channel.setOptions o
      (channel2, { s with all := fun k => if k = n then some channel2 else s.all k })
    | none => (channel, s)

/-- Source `Channels.release(name)`: `delete this.all[String(name)]`. -/
def Channels.release (s : Channels) (name : JName) : Channels :=
  { s with all := fun k => if k = name.toStr then none else s.all k }

/- ---------------------------------------------------------------- -/
/- BaseClient constructor (baseclient.ts lines 38-91)                -/
/- ---------------------------------------------------------------- -/

/-- The whitespace class `\s` of the key regular expression, restricted
to the ASCII whitespace characters. -/
def jsIsSpace (c : Char) : Bool :=
  c = ' ' || c = '\t' || c = '\n' || c = '\r' || c = Char.ofNat 11 || c = Char.ofNat 12

/-- Source key check, line 61: the match against the anchored regular
expression with two groups, group one being one or more characters that
are neither a colon nor whitespace, then a literal colon, then group two
being one or more characters that are neither a colon, a dot nor
whitespace.  Because neither group may contain a colon, a string matches
exactly when it has a single colon whose two sides satisfy the character
classes; the function returns the two capture groups on a match. -/
def keyMatch (s : String) : Option (String × String) :=
  match s.data.splitOn ':' with
  | [a, b] =>
    if !a.isEmpty && a.all (fun c => !jsIsSpace c) &&
        !b.isEmpty && b.all (fun c => !jsIsSpace c && c != '.') then
      some (⟨a⟩, ⟨b⟩)
    else none
  | _ => none

/-- The client options after `Defaults.objectifyOptions` and
`Defaults.normaliseOptions` (both outside the embedded files; they leave
`key` and `clientId` as supplied).  `clientIdPresent` models the
JavaScript test `'clientId' in normalOptions`, which is distinct from the
value being `undefined`. -/
structure ClientOptionsM where
  key : Option String
  clientIdPresent : Bool
  clientId : JsVal
deriving DecidableEq, Repr

/-- Cool-down record for the sticky HTTP fallback host: the non-null case
of the `_currentFallback` field, carrying `host` and `validUntil`. -/
structure FallbackRec where
  host : String
  validUntil : Nat
deriving DecidableEq, Repr

/-- Instance state of a constructed `BaseClient`, restricted to the
fields the claims inspect.  The `auth`, `push` and `http` collaborators
are created in the same tail of the constructor as `channels` and are
represented by the `collaboratorsCreated` flag. -/
structure BaseClient where
  keyName : Option String
  keySecret : Option String
  currentFallback : Option FallbackRec
  serverTimeOffset : Option Int
  channels : Channels
  collaboratorsCreated : Bool

/-- An exception thrown by the constructor: either a plain
`new Error(msg)` or a `new ErrorInfo(...)`. -/
inductive InitError where
  | jsError (msg : String)
  | errInfo (e : ErrorInfo)
deriving DecidableEq, Repr

/-- Constructor lines 71-91: the clientId validation followed by the
field assignments (`_currentFallback = null`, `serverTimeOffset = null`,
then the collaborator objects and the fresh `Channels`). -/
def baseClientInitAfterKey (normalOptions : ClientOptionsM) (kn ks : Option String) :
    Except InitError BaseClient :=
  if normalOptions.clientIdPresent then
    if !(normalOptions.clientId.isString || normalOptions.clientId.isNull) then
      .error (.errInfo ⟨"clientId must be either a string or null", 40012, 400⟩)
    else if normalOptions.clientId = .strV "*" then
      .error (.errInfo ⟨"reserved clientId", 40012, 400⟩)
    else
      .ok ⟨kn, ks, none, none, Channels.mk0, true⟩
  else
    .ok ⟨kn, ks, none, none, Channels.mk0, true⟩

/-- Source `BaseClient` constructor, lines 43-91.  `none` options models a
falsy `options` argument.  Messages longer than one line in the source are
abridged; codes and status codes are kept verbatim.  All throws happen
before line 84 onward assigns `_currentFallback`, `serverTimeOffset`,
`http`, `auth`, `channels` and `push`, so an error produces no instance
state at all (`Except.error`). -/
def baseClientInit (options : Option ClientOptionsM) : Except InitError BaseClient :=
  match options with
  | none => .error (.jsError "no options provided")
  | some normalOptions =>
    match normalOptions.key with
    | some k =>
      match keyMatch k with
      | none => .error (.errInfo ⟨"invalid key parameter", 40400, 404⟩)
      | some (kn, ks) => baseClientInitAfterKey normalOptions (some kn) (some ks)
    | none => baseClientInitAfterKey normalOptions none none

/- ---------------------------------------------------------------- -/
/- stats / time / request argument dispatch (lines 97-136, 196-200)  -/
/- ---------------------------------------------------------------- -/

/-- How a call to one of the public HTTP operations proceeds after its
optional-argument resolution: either it returns a `Promise`
(`Utils.promisify`), or it runs in callback mode, returning no value, with
the effective callback and the effective params it settled on. -/
inductive CallMode where
  | promiseMode
  | cbMode (cb : JsVal) (params : JsVal)
deriving DecidableEq, Repr

/-- Source `stats` lines 102-109: when `callback` is `undefined`, a
function-typed `params` is taken as the callback (with `params` set to
`null`); a non-function `params` routes the call to
`Utils.promisify(this, 'stats', [params])`. -/
def statsDispatch (params : JsVal) (callback : Option JsVal) : CallMode :=
  match callback with
  | some cb => .cbMode cb params
  | none =>
    if params.isFunction then .cbMode params .nullV
    else .promiseMode

/-- Source `time` lines 129-136: identical optional-argument resolution
to `stats`. -/
def timeDispatch (params : JsVal) (callback : Option JsVal) : CallMode :=
  match callback with
  | some cb => .cbMode cb params
  | none =>
    if params.isFunction then .cbMode params .nullV
    else .promiseMode

/-- Source `request` lines 196-200: only `callback === undefined` routes
to `Utils.promisify(this, 'request', [...])`; no positional argument is
reinterpreted. -/
def requestDispatch (params : JsVal) (callback : Option JsVal) : CallMode :=
  match callback with
  | none => .promiseMode
  | some cb => .cbMode cb params

/- ---------------------------------------------------------------- -/
/- time() response handling (lines 145-172)                          -/
/- ---------------------------------------------------------------- -/

/-- One invocation of the `time` callback: `_callback(err)` or
`_callback(null, time)`. -/
inductive CbCall where
  | errCall (e : ErrorInfo)
  | okCall (time : Int)
deriving DecidableEq, Repr

/-- The `ErrorInfo` built at line 165. -/
def timeInternalError : ErrorInfo :=
  ⟨"Internal error (unexpected result type from GET /time)", 50000, 500⟩

/-- Source `time()` response handler, lines 152-171: `err` is the
transport error argument, `res` the decoded response body (the handler
first parses an unenveloped string body; `res` here models the parsed
array), `now` is `Utils.now()` and `offset0` the current
`serverTimeOffset`.  Returns the list of callback invocations the handler
performs and the resulting `serverTimeOffset` field.  The falsy test
`if (!time)` fires both when the array is empty (element `undefined`) and
when its first element is `0`. -/
def timeHandler (err : Option ErrorInfo) (res : List Int) (now : Int) (offset0 : Option Int) :
    List CbCall × Option Int :=
  match err with
  | some e => ([.errCall e], offset0)
  | none =>
    match res.head? with
    | none => ([.errCall timeInternalError], offset0)
    | some t =>
      if t = 0 then ([.errCall timeInternalError], offset0)
      else ([.okCall t], some (t - now))

/-- The effect of one `time()` response on a client instance: line 169
writes `this.serverTimeOffset` on the receiving instance only. -/
def BaseClient.applyTimeResponse (c : BaseClient) (err : Option ErrorInfo) (res : List Int)
    (now : Int) : BaseClient × List CbCall :=
  let r := timeHandler err res now c.serverTimeOffset
  ({ c with serverTimeOffset := r.2 }, r.1)

/-- A family of distinct client instances, indexed by identity.  Source
line 169 assigns through `this`, so running a `time()` response on the
instance at index `i` replaces only that instance. -/
def clientsApplyTime (w : Nat → BaseClient) (i : Nat) (err : Option ErrorInfo) (res : List Int)
    (now : Int) : Nat → BaseClient :=
  fun j => if j = i then ((w i).applyTimeResponse err res now).1 else w j

/- ---------------------------------------------------------------- -/
/- request() method validation (lines 175-232)                       -/
/- ---------------------------------------------------------------- -/

/-- The HTTP call `request` hands to the `PaginatedResource` once its
checks pass: lowercased method, path, and whether the method carries a
body (`methodsWithBody` selects the post-style overload at line 224). -/
structure IssuedRequest where
  method : String
  path : String
  hasBody : Bool
deriving DecidableEq, Repr

/-- JavaScript `toLowerCase()` on one ASCII character. -/
def jsCharToLower (c : Char) : Char :=
  if 'A' ≤ c && c ≤ 'Z' then Char.ofNat (c.toNat + 32) else c

/-- JavaScript `method.toLowerCase()` (ASCII range, which covers every
HTTP method string the platform lists contain). -/
def jsToLower (s : String) : String :=
  ⟨s.data.map jsCharToLower⟩

/-- Source `request` lines 190 and 220-231: `_method = method.toLowerCase()`;
if `_method` is not in `Platform.Http.methods` the call throws
`ErrorInfo('Unsupported method ' + _method, 40500, 405)` before any HTTP
request is made (the `PaginatedResource` constructed at line 209 performs
no I/O until its `get`/`post`/`delete` method runs); otherwise the request
is issued through the resource.  `httpMethods` and `methodsWithBody` are
the platform lists, parameters here because the platform layer is outside
the embedded files. -/
def requestRun (httpMethods methodsWithBody : List String) (method path : String) :
    Except ErrorInfo IssuedRequest :=
  let mLower := jsToLower method
  if !(httpMethods.contains mLower) then
    .error ⟨"Unsupported method " ++ mLower, 40500, 405⟩
  else if methodsWithBody.contains mLower then
    .ok ⟨mLower, path, true⟩
  else
    .ok ⟨mLower, path, false⟩

/- ---------------------------------------------------------------- -/
/- Sticky fallback host selection                                    -/
/- ---------------------------------------------------------------- -/

/-- Modelled from the spec: the host-selection step of the HTTP request
engine.  Only the `_currentFallback` field and its initialisation are in
`baseclient.ts`; the code consuming it (the `Http` layer) is outside the
embedded files.  Spec 4.4: "A host that previously succeeded is preferred
on subsequent calls (sticky fallback) until it fails or the cool-down
expires."  Given the current record, the time of the call, the primary
host and the configured fallback hosts, returns the hosts to try in order
together with the record after the expiry check. -/
def fallbackHosts (fb : Option FallbackRec) (now : Nat) (primary : String)
    (fallbacks : List String) : List String × Option FallbackRec :=
  match fb with
  | none => (primary :: fallbacks, none)
  | some r =>
    if now < r.validUntil then (r.host :: primary :: fallbacks, some r)
    else (primary :: fallbacks, none)

/-- Modelled from the spec: recording a fallback host that just served a
request successfully, with its cool-down expiry. -/
def fallbackOnSuccess (host : String) (now cooldown : Nat) : Option FallbackRec :=
  some ⟨host, now + cooldown⟩

/-- Modelled from the spec: the record is dropped when its host fails. -/
def fallbackOnFailure : Option FallbackRec :=
  none

/- ---------------------------------------------------------------- -/
/- Helper lemmas                                                     -/
/- ---------------------------------------------------------------- -/

/-- Helper: whenever the constructor tail succeeds, the produced instance
carries exactly the assignments of lines 84-90. -/
theorem baseClientInitAfterKey_ok_fields (no : ClientOptionsM) (kn ks : Option String)
    (c : BaseClient) (h : baseClientInitAfterKey no kn ks = .ok c) :
    c = ⟨kn, ks, none, none, Channels.mk0, true⟩ := by
  unfold baseClientInitAfterKey at h
  split at h
  · split at h
    · cases h
    · split at h
      · cases h
      · exact (Except.ok.inj h).symm
  · exact (Except.ok.inj h).symm

/-- Helper: a successfully constructed client starts with
`_currentFallback = null` and `serverTimeOffset = null`. -/
theorem baseClientInit_ok_state (o : Option ClientOptionsM) (c : BaseClient)
    (h : baseClientInit o = .ok c) :
    c.currentFallback = none ∧ c.serverTimeOffset = none := by
  cases o with
  | none => cases h
  | some no =>
    have h2 : (match no.key with
      | some k =>
        match keyMatch k with
        | none =>
          (.error (.errInfo ⟨"invalid key parameter", 40400, 404⟩) : Except InitError BaseClient)
        | some (kn, ks) => baseClientInitAfterKey no (some kn) (some ks)
      | none => baseClientInitAfterKey no none none) = .ok c := h
    split at h2
    next k hk =>
      split at h2
      next => cases h2
      next kn ks hm =>
        rw [baseClientInitAfterKey_ok_fields no (some kn) (some ks) c h2]
        exact ⟨rfl, rfl⟩
    next =>
      rw [baseClientInitAfterKey_ok_fields no none none c h2]
      exact ⟨rfl, rfl⟩

/- ---------------------------------------------------------------- -/
/- Claims                                                            -/
/- ---------------------------------------------------------------- -/

/-- C1: the channel set holds at most one Channel per (coerced) name:
`Channels.get` returns the existing instance when one is stored for the
coerced name, otherwise creates, stores and returns a fresh one, and a
second `get` with the same name (no intervening `release`) returns the
same instance (same object identity `id`). -/
theorem channels_get_idempotent_per_name (s : Channels) (name : JName)
    (o1 o2 : Option ChannelOptions) :
    (∀ ch, s.all name.toStr = some ch → (s.get name o1).1.id = ch.id) ∧
    (s.all name.toStr = none →
      (s.get name o1).1.id = s.nextId ∧
      (s.get name o1).2.all name.toStr = some (s.get name o1).1) ∧
    ((s.get name o1).2.get name o2).1.id = (s.get name o1).1.id := by
  cases h : s.all name.toStr with
  | none =>
    refine ⟨?_, ?_, ?_⟩
    · intro ch hch; exact Option.noConfusion hch
    · intro _
      exact ⟨by simp [Channels.get, h], by simp [Channels.get, h]⟩
    · cases o1 <;> cases o2 <;> simp [Channels.get, h, Channel.setOptions]
  | some ch0 =>
    refine ⟨?_, ?_, ?_⟩
    · intro ch hch
      cases Option.some.inj hch
      cases o1 <;> simp [Channels.get, h, Channel.setOptions]
    · intro hc; exact Option.noConfusion hc
    · cases o1 <;> cases o2 <;> simp [Channels.get, h, Channel.setOptions]

/-- Witness for C1 at a concrete fresh channel set and name. -/
theorem channels_get_idempotent_per_name_witness :
    (Channels.mk0.all (JName.str "events").toStr = none) ∧
    ((Channels.mk0.get (.str "events") none).1.id = Channels.mk0.nextId ∧
      (Channels.mk0.get (.str "events") none).2.all (JName.str "events").toStr =
        some (Channels.mk0.get (.str "events") none).1) ∧
    ((Channels.mk0.get (.str "events") none).2.get (.str "events") none).1.id =
      (Channels.mk0.get (.str "events") none).1.id := by
  have h := channels_get_idempotent_per_name Channels.mk0 (.str "events") none none
  exact ⟨rfl, h.2.1 rfl, h.2.2⟩

/-- C8: `fromValues` after `toJSON` restores the `channel`, `deviceId`
and `clientId` fields, and `toJSON` produces exactly the object with
those three fields. -/
theorem pushChannelSubscription_roundtrip (s : PushChannelSubscription) :
    PushChannelSubscription.fromValues s.toJSON = s ∧
    s.toJSON = [("channel", s.channel), ("deviceId", s.deviceId), ("clientId", s.clientId)] := by
  cases s
  exact ⟨rfl, rfl⟩

/-- C10: `fromValuesArray` maps `fromValues` element-wise, preserving
length and order. -/
theorem pushChannelSubscription_fromValuesArray_map (vs : List (List JsonField)) :
    (PushChannelSubscription.fromValuesArray vs).length = vs.length ∧
    ∀ i : Nat, (PushChannelSubscription.fromValuesArray vs)[i]? =
      (vs[i]?).map PushChannelSubscription.fromValues := by
  induction vs with
  | nil => exact ⟨rfl, fun i => by cases i <;> rfl⟩
  | cons v rest ih =>
    refine ⟨by simpa [PushChannelSubscription.fromValuesArray] using ih.1, fun i => ?_⟩
    cases i with
    | zero => simp [PushChannelSubscription.fromValuesArray]
    | succ n => simpa [PushChannelSubscription.fromValuesArray] using ih.2 n

/-- C2 counterexample: with `callback` absent, `stats` gives the call a
different meaning depending on the runtime type of `params` — a function
value is taken as the callback, any other value routes to the promise
path — so the meaning does depend on inspecting a positional argument. -/
theorem stats_dispatch_inspects_params_type :
    statsDispatch (.objV 0) none = .promiseMode ∧
    statsDispatch (.funV 0) none = .cbMode (.funV 0) .nullV ∧
    statsDispatch (.funV 0) none ≠ .promiseMode := by
  exact ⟨rfl, rfl, by decide⟩

/-- C2 (amended): `request` uses a single asynchronous-result contract
with no positional overload resolution — it returns a promise exactly
when `callback` is absent and never reinterprets another argument — but
`stats` and `time` do resolve overloads positionally: with `callback`
absent they inspect the runtime type of `params` and treat a
function-valued `params` as the callback. -/
theorem dispatch_overload_resolution (p : JsVal) (c : Option JsVal) :
    (requestDispatch p c = .promiseMode ↔ c = none) ∧
    (statsDispatch p none = .promiseMode ↔ p.isFunction = false) ∧
    (timeDispatch p none = .promiseMode ↔ p.isFunction = false) ∧
    (p.isFunction = true →
      statsDispatch p none = .cbMode p .nullV ∧ timeDispatch p none = .cbMode p .nullV) := by
  cases c <;> cases p <;>
    simp [requestDispatch, statsDispatch, timeDispatch, JsVal.isFunction]

/-- Witness for C2 (amended) at concrete arguments. -/
theorem dispatch_overload_resolution_witness :
    requestDispatch (.objV 0) none = .promiseMode ∧
    statsDispatch (.funV 3) none = .cbMode (.funV 3) .nullV := by
  exact ⟨(dispatch_overload_resolution (.objV 0) none).1.mpr rfl,
    ((dispatch_overload_resolution (.funV 3) none).2.2.2 rfl).1⟩

/-- C6: each of `stats`, `time` and `request` returns a promise exactly
when the call supplies no callback (for `stats` and `time`, a
function-valued `params` argument is the supplied callback); when a
callback is supplied the call proceeds in callback mode, returning no
value, with completion delivered through that callback. -/
theorem http_ops_promise_iff_no_callback (p : JsVal) (c : Option JsVal) :
    (statsDispatch p c = .promiseMode ↔ (c = none ∧ p.isFunction = false)) ∧
    (timeDispatch p c = .promiseMode ↔ (c = none ∧ p.isFunction = false)) ∧
    (requestDispatch p c = .promiseMode ↔ c = none) ∧
    (∀ cb, c = some cb →
      statsDispatch p c = .cbMode cb p ∧ timeDispatch p c = .cbMode cb p ∧
        requestDispatch p c = .cbMode cb p) ∧
    (c = none → p.isFunction = true →
      statsDispatch p c = .cbMode p .nullV ∧ timeDispatch p c = .cbMode p .nullV) := by
  cases c <;> cases p <;>
    simp [requestDispatch, statsDispatch, timeDispatch, JsVal.isFunction]

/-- Witness for C6: a bare call returns a promise; a call with a callback
runs in callback mode. -/
theorem http_ops_promise_iff_no_callback_witness :
    statsDispatch (.objV 1) none = .promiseMode ∧
    requestDispatch (.objV 1) (some (.funV 2)) = .cbMode (.funV 2) (.objV 1) := by
  exact ⟨(http_ops_promise_iff_no_callback (.objV 1) none).1.mpr ⟨rfl, rfl⟩,
    ((http_ops_promise_iff_no_callback (.objV 1) (some (.funV 2))).2.2.2.1 (.funV 2) rfl).2.2⟩

/-- C4 counterexample: with no transport error and decoded response `[0]`,
the first element of the response is present, yet the callback receives
the internal 50000/500 error instead of `(null, 0)` — the falsy test
`if (!time)` does not distinguish a missing element from a zero one. -/
theorem time_callback_zero_counterexample :
    (timeHandler none [0] 5 none).1 = [.errCall timeInternalError] ∧
    ([0] : List Int).head? = some 0 ∧
    (timeHandler none [0] 5 none).1 ≠ [.okCall 0] := by
  exact ⟨rfl, rfl, by decide⟩

/-- C4 (amended): every run of the `time` response handler invokes the
callback exactly once: with the transport error when one is present; with
the internal ErrorInfo of code 50000 and status 500 when the first element
of the response is missing or zero (the falsy test); otherwise with
`(null, time)`. -/
theorem time_callback_exactly_one (err : Option ErrorInfo) (res : List Int) (now : Int)
    (off : Option Int) :
    (timeHandler err res now off).1.length = 1 ∧
    (∀ e, err = some e → (timeHandler err res now off).1 = [.errCall e]) ∧
    (err = none → (res.head? = none ∨ res.head? = some 0) →
      (timeHandler err res now off).1 = [.errCall timeInternalError]) ∧
    (∀ t, err = none → res.head? = some t → t ≠ 0 →
      (timeHandler err res now off).1 = [.okCall t] ∧
      (timeHandler err res now off).2 = some (t - now)) := by
  cases err with
  | some e =>
    refine ⟨rfl, ?_, ?_, ?_⟩
    · intro e2 he; cases Option.some.inj he; rfl
    · intro hc; exact Option.noConfusion hc
    · intro t hc; exact Option.noConfusion hc
  | none =>
    cases res with
    | nil =>
      refine ⟨rfl, ?_, ?_, ?_⟩
      · intro e2 he; exact Option.noConfusion he
      · intro _ _; rfl
      · intro t _ ht; exact Option.noConfusion ht
    | cons a l =>
      by_cases ha : a = 0
      · subst ha
        refine ⟨rfl, ?_, ?_, ?_⟩
        · intro e2 he; exact Option.noConfusion he
        · intro _ _; rfl
        · intro t _ ht hne
          exact absurd (Option.some.inj ht).symm hne
      · refine ⟨by simp [timeHandler, ha], ?_, ?_, ?_⟩
        · intro e2 he; exact Option.noConfusion he
        · intro _ hc
          rcases hc with hc | hc
          · exact Option.noConfusion hc
          · exact absurd (Option.some.inj hc) ha
        · intro t _ ht _
          cases Option.some.inj ht
          exact ⟨by simp [timeHandler, ha], by simp [timeHandler, ha]⟩

/-- Witness for C4 (amended): a successful response invokes the callback
once with the returned time and records the offset. -/
theorem time_callback_exactly_one_witness :
    (timeHandler none [5] 2 none).1.length = 1 ∧
    (timeHandler none [5] 2 none).1 = [.okCall 5] ∧
    (timeHandler none [5] 2 none).2 = some 3 := by
  have h := time_callback_exactly_one none [5] 2 none
  have h5 := h.2.2.2 5 rfl rfl (by decide)
  exact ⟨h.1, h5.1, h5.2⟩

/-- C5: a `request` whose lowercased method is outside the supported
method set fails with ErrorInfo 40500/405 and issues no request; a
supported method issues exactly the one call, carrying the lowercased
method and the path, through the paginated resource. -/
theorem request_method_validation (methods mwb : List String) (method path : String) :
    (methods.contains (jsToLower method) = false →
      requestRun methods mwb method path =
        .error ⟨"Unsupported method " ++ jsToLower method, 40500, 405⟩ ∧
      ∀ r, requestRun methods mwb method path ≠ .ok r) ∧
    (methods.contains (jsToLower method) = true →
      ∃ r, requestRun methods mwb method path = .ok r ∧
        r.method = jsToLower method ∧ r.path = path) := by
  constructor
  · intro h
    have h2 : ¬(jsToLower method ∈ methods) := by simpa using h
    refine ⟨by simp [requestRun, h2], ?_⟩
    intro r; simp [requestRun, h2]
  · intro h
    have h2 : jsToLower method ∈ methods := by simpa using h
    by_cases hb : jsToLower method ∈ mwb
    · exact ⟨⟨jsToLower method, path, true⟩, by simp [requestRun, h2, hb], rfl, rfl⟩
    · exact ⟨⟨jsToLower method, path, false⟩, by simp [requestRun, h2, hb], rfl, rfl⟩

/-- Witness for C5: method TRACE is rejected with 40500/405; method GET is
issued. -/
theorem request_method_validation_witness :
    requestRun ["get", "delete", "post", "put", "patch"] ["post", "put", "patch"]
      "TRACE" "/time" = .error ⟨"Unsupported method " ++ jsToLower "TRACE", 40500, 405⟩ ∧
    ∃ r, requestRun ["get", "delete", "post", "put", "patch"] ["post", "put", "patch"]
      "GET" "/time" = .ok r ∧ r.method = jsToLower "GET" ∧ r.path = "/time" := by
  have h1 := request_method_validation ["get", "delete", "post", "put", "patch"]
    ["post", "put", "patch"] "TRACE" "/time"
  have h2 := request_method_validation ["get", "delete", "post", "put", "patch"]
    ["post", "put", "patch"] "GET" "/time"
  exact ⟨(h1.1 (by decide)).1, h2.2 (by decide)⟩

/-- C3: the sticky fallback with cool-down: a constructed client starts
with `_currentFallback = null`; while a record is present and unexpired,
host selection puts the recorded host first and keeps the record; the
record is dropped when the cool-down has expired or when the host fails. -/
theorem fallback_sticky_cooldown :
    (∀ o c, baseClientInit o = .ok c → c.currentFallback = none) ∧
    (∀ (r : FallbackRec) (now : Nat) (primary : String) (fs : List String),
      now < r.validUntil →
      (fallbackHosts (some r) now primary fs).1.head? = some r.host ∧
      (fallbackHosts (some r) now primary fs).2 = some r) ∧
    (∀ (r : FallbackRec) (now : Nat) (primary : String) (fs : List String),
      ¬now < r.validUntil → (fallbackHosts (some r) now primary fs).2 = none) ∧
    fallbackOnFailure = none := by
  refine ⟨fun o c h => (baseClientInit_ok_state o c h).1, ?_, ?_, rfl⟩
  · intro r now primary fs h
    exact ⟨by simp [fallbackHosts, h], by simp [fallbackHosts, h]⟩
  · intro r now primary fs h
    simp [fallbackHosts, h]

/-- Witness for C3 at a concrete client, record and clock. -/
theorem fallback_sticky_cooldown_witness :
    (∃ c, baseClientInit (some ⟨none, false, .undefV⟩) = .ok c ∧ c.currentFallback = none) ∧
    (fallbackHosts (some ⟨"b.ably-realtime.com", 10⟩) 5 "rest.ably.io"
      ["c.ably-realtime.com"]).1.head? = some "b.ably-realtime.com" ∧
    (fallbackHosts (some ⟨"b.ably-realtime.com", 10⟩) 20 "rest.ably.io"
      ["c.ably-realtime.com"]).2 = none := by
  have h := fallback_sticky_cooldown
  refine ⟨⟨⟨none, none, none, none, Channels.mk0, true⟩, rfl,
    h.1 (some ⟨none, false, .undefV⟩) ⟨none, none, none, none, Channels.mk0, true⟩ rfl⟩, ?_, ?_⟩
  · exact (h.2.1 ⟨"b.ably-realtime.com", 10⟩ 5 "rest.ably.io" ["c.ably-realtime.com"]
      (by decide)).1
  · exact h.2.2.1 ⟨"b.ably-realtime.com", 10⟩ 20 "rest.ably.io" ["c.ably-realtime.com"]
      (by decide)

/-- C7: `serverTimeOffset` is per-client-instance state: it is null on
every successfully constructed instance, and applying a `time()` response
to the instance at index `i` of a family of instances leaves every other
instance unchanged while updating only the receiver. -/
theorem serverTimeOffset_per_instance (w : Nat → BaseClient) (i j : Nat)
    (err : Option ErrorInfo) (res : List Int) (now : Int) :
    (∀ o c, baseClientInit o = .ok c → c.serverTimeOffset = none) ∧
    (j ≠ i → clientsApplyTime w i err res now j = w j) ∧
    clientsApplyTime w i err res now i = ((w i).applyTimeResponse err res now).1 := by
  refine ⟨fun o c h => (baseClientInit_ok_state o c h).2, ?_, ?_⟩
  · intro hne; simp [clientsApplyTime, hne]
  · simp [clientsApplyTime]

/-- Witness for C7: instance 1 is untouched by a `time()` response applied
to instance 0. -/
theorem serverTimeOffset_per_instance_witness :
    clientsApplyTime (fun _ => ⟨none, none, none, none, Channels.mk0, true⟩) 0 none [5] 2 1 =
      (⟨none, none, none, none, Channels.mk0, true⟩ : BaseClient) := by
  exact (serverTimeOffset_per_instance (fun _ => ⟨none, none, none, none, Channels.mk0, true⟩)
    0 1 none [5] 2).2.1 (by decide)

/-- C9: constructor validation: falsy options throw a plain Error; a key
not matching the name:secret format throws ErrorInfo 40400; with the key
absent or valid, a present clientId that is neither a string nor null, or
is the reserved string "*", throws ErrorInfo 40012; in each case the
result is an `Except.error`, so no instance state (channels, auth, push)
is produced. -/
theorem baseClientInit_validation :
    baseClientInit none = .error (.jsError "no options provided") ∧
    (∀ o k, o.key = some k → keyMatch k = none →
      baseClientInit (some o) = .error (.errInfo ⟨"invalid key parameter", 40400, 404⟩)) ∧
    (∀ o, (o.key = none ∨ ∃ k kn ks, o.key = some k ∧ keyMatch k = some (kn, ks)) →
      o.clientIdPresent = true →
      ((o.clientId.isString = false ∧ o.clientId.isNull = false) →
        baseClientInit (some o) =
          .error (.errInfo ⟨"clientId must be either a string or null", 40012, 400⟩)) ∧
      (o.clientId = .strV "*" →
        baseClientInit (some o) = .error (.errInfo ⟨"reserved clientId", 40012, 400⟩))) := by
  refine ⟨rfl, ?_, ?_⟩
  · intro o k hk hm
    simp [baseClientInit, hk, hm]
  · intro o hkey hpres
    have hrun : ∀ kn ks, baseClientInit (some o) = baseClientInitAfterKey o kn ks →
        ((o.clientId.isString = false ∧ o.clientId.isNull = false) →
          baseClientInit (some o) =
            .error (.errInfo ⟨"clientId must be either a string or null", 40012, 400⟩)) ∧
        (o.clientId = .strV "*" →
          baseClientInit (some o) = .error (.errInfo ⟨"reserved clientId", 40012, 400⟩)) := by
      intro kn ks heq
      rw [heq]
      constructor
      · intro ⟨hs, hn⟩
        simp [baseClientInitAfterKey, hpres, hs, hn]
      · intro hstar
        simp [baseClientInitAfterKey, hpres, hstar, JsVal.isString, JsVal.isNull]
    rcases hkey with hk | ⟨k, kn, ks, hk, hm⟩
    · exact hrun none none (by simp [baseClientInit, hk])
    · exact hrun (some kn) (some ks) (by simp [baseClientInit, hk, hm])

/-- Witness for C9: a key without a colon is rejected with 40400; the
reserved clientId "*" is rejected with 40012. -/
theorem baseClientInit_validation_witness :
    baseClientInit (some ⟨some "nocolonkey", false, .undefV⟩) =
      .error (.errInfo ⟨"invalid key parameter", 40400, 404⟩) ∧
    baseClientInit (some ⟨none, true, .strV "*"⟩) =
      .error (.errInfo ⟨"reserved clientId", 40012, 400⟩) := by
  refine ⟨baseClientInit_validation.2.1 ⟨some "nocolonkey", false, .undefV⟩ "nocolonkey"
    rfl (by decide), ?_⟩
  exact (baseClientInit_validation.2.2 ⟨none, true, .strV "*"⟩ (Or.inl rfl) rfl).2 rfl

end AblyJs
